import Mathlib

/-!
Verification development for the hydrogen-wishlist reconciliation and sync
engine.  The TypeScript sources are shallowly embedded as Lean definitions:

* `src/src/utils/merge.ts` — identity keys, the merge algorithm,
  deduplication, diff, and the derived sort views;
* `src/src/utils/storage.ts` together with the validation module —
  the localStorage adapter for the guest collection;
* the `WishlistProvider` component — the state controller (init/load,
  sync, add, remove, membership), modelled as pure state-transition
  functions parameterised by the outcome of the one network round trip
  each operation performs.

Modelling conventions:

* `addedAt` is an ISO timestamp string in the source, parsed with
  `new Date(...)` at every comparison.  Here it is embedded as the parse
  result `Option Nat` (epoch milliseconds); `none` models an unparseable
  string (an Invalid Date, whose numeric value is NaN, so every `<`
  comparison involving it is false).
* A price `amount` is a decimal string in the source, read with
  `parseFloat` at every comparison.  It is embedded as its parsed exact
  numeric value (`Int`).
* Optional fields of items are embedded as `Option`.  Items reaching the
  merge and storage code are JSON round-tripped (localStorage and the
  HTTP body), and `JSON.stringify` drops `undefined`-valued properties,
  so an optional field is `none` exactly when the JSON key is absent.
  Consequently the object spread `{...existing, ...item}` takes the
  field of `item` when it is present and falls back to `existing`
  otherwise (`jsOr` below).
* JavaScript `Array.prototype.sort` with a numeric comparator is a
  stable sort; it is embedded as a stable insertion sort
  (`sortStable`) driven by the comparator's strict "comes before"
  relation.  A comparator result of NaN is treated as a tie, matching
  the engines' binary `> 0` tests on the comparator value.
-/

namespace Wishlist

/-- `image` field of a wishlist item (`{url, altText?}`). -/
structure Image where
  url : String
  altText : Option String
deriving DecidableEq, Repr

/-- `price` field of a wishlist item; `amount` is the parsed numeric value
of the decimal amount string. -/
structure Price where
  amount : Int
  currencyCode : String
deriving DecidableEq, Repr

/-- `WishlistItem` from the source's types module.  `addedAt` is embedded
as the parsed timestamp (`none` = unparseable). -/
structure WishlistItem where
  productId : String
  variantId : Option String
  productTitle : String
  productHandle : Option String
  variantTitle : Option String
  image : Option Image
  price : Option Price
  addedAt : Option Nat
deriving DecidableEq, Repr

/-- JavaScript `a ?? b` / object-spread fallback on optional fields. -/
def jsOr (a b : Option α) : Option α :=
  match a with
  | some x => some x
  | none => b

/-- `new Date(a) < new Date(b)`: true exactly when both timestamps are
parseable and the first is numerically smaller (comparisons involving an
Invalid Date, i.e. NaN, are false). -/
def dateLt (a b : Option Nat) : Bool :=
  match a, b with
  | some x, some y => x < y
  | _, _ => false

/-- `createItemKey` from merge.ts:
`` `${item.productId}:${item.variantId ?? 'default'}` ``. -/
def createItemKey (item : WishlistItem) : String :=
  item.productId ++ ":" ++ (item.variantId.getD "default")

/-- Lookup in the insertion-ordered JS `Map`, embedded as an association
list. -/
def mapGet (k : String) : List (String × WishlistItem) → Option WishlistItem
  | [] => none
  | p :: rest => if p.1 = k then some p.2 else mapGet k rest

/-- `Map.set`: replaces the value in place when the key is present
(JS `Map.set` keeps the original insertion position), appends otherwise. -/
def mapSet (k : String) (v : WishlistItem) :
    List (String × WishlistItem) → List (String × WishlistItem)
  | [] => [(k, v)]
  | p :: rest => if p.1 = k then (k, v) :: rest else p :: mapSet k v rest

/-- The shallow merge `{...existing, ...item, addedAt: item.addedAt}`
performed by `mergeWishlists` when the guest item's timestamp is strictly
earlier: required fields come from `item`, optional fields from `item`
when present there and from `existing` otherwise. -/
def spreadMerge (existing item : WishlistItem) : WishlistItem :=
  { productId := item.productId
    variantId := jsOr item.variantId existing.variantId
    productTitle := item.productTitle
    productHandle := jsOr item.productHandle existing.productHandle
    variantTitle := jsOr item.variantTitle existing.variantTitle
    image := jsOr item.image existing.image
    price := jsOr item.price existing.price
    addedAt := item.addedAt }

/-- One iteration of the guest-items loop of `mergeWishlists`. -/
def mergeStep (m : List (String × WishlistItem)) (item : WishlistItem) :
    List (String × WishlistItem) :=
  let k := createItemKey item
  match mapGet k m with
  | none => mapSet k item m
  | some existing =>
      if dateLt item.addedAt existing.addedAt then
        mapSet k (spreadMerge existing item) m
      else m

/-- The customer-items loop of `mergeWishlists` (baseline seeding of the
map). -/
def seedMap (items : List WishlistItem) : List (String × WishlistItem) :=
  items.foldl (fun m it => mapSet (createItemKey it) it m) []

/-- The `merged` map built by `mergeWishlists` just before the final
sort. -/
def mergeMap (guestItems customerItems : List WishlistItem) :
    List (String × WishlistItem) :=
  guestItems.foldl mergeStep (seedMap customerItems)

/-- Stable insertion of `x` into `l`: `x` is placed after every element
that strictly precedes it and before the first element that does not
(so ties keep the earlier element first, as JS's stable sort does). -/
def insertSorted (lt : α → α → Bool) (x : α) : List α → List α
  | [] => [x]
  | y :: ys => if lt y x then y :: insertSorted lt x ys else x :: y :: ys

/-- Stable sort by the strict "comes before" relation `lt` — the
embedding of `Array.prototype.sort` with a numeric comparator `c`, where
`lt a b` = `c a b < 0`. -/
def sortStable (lt : α → α → Bool) : List α → List α
  | [] => []
  | x :: xs => insertSorted lt x (sortStable lt xs)

/-- Strict order of the newest-first comparator
`(a, b) => getTime(b) - getTime(a)`: `a` comes strictly before `b` iff
both dates parse and `b`'s time is smaller. -/
def newestLt (a b : WishlistItem) : Bool :=
  match a.addedAt, b.addedAt with
  | some ta, some tb => tb < ta
  | _, _ => false

/-- `mergeWishlists` from merge.ts: union by identity key with the
customer items as baseline, keeping the earlier `addedAt` (via
`spreadMerge`) for duplicates, returned sorted newest first. -/
def mergeWishlists (guestItems customerItems : List WishlistItem) :
    List WishlistItem :=
  sortStable newestLt ((mergeMap guestItems customerItems).map Prod.snd)

/-- `findNewItems` from merge.ts: items of `after` whose identity key is
absent from `before`. -/
def findNewItems (before after : List WishlistItem) : List WishlistItem :=
  let beforeKeys := before.map createItemKey
  after.filter (fun item => !(beforeKeys.contains (createItemKey item)))

/-- Loop of `deduplicateItems`, carrying the `seen` key set. -/
def dedupGo (seen : List String) : List WishlistItem → List WishlistItem
  | [] => []
  | item :: rest =>
      let k := createItemKey item
      if seen.contains k then dedupGo seen rest
      else item :: dedupGo (k :: seen) rest

/-- `deduplicateItems` from merge.ts: keeps the first occurrence per
identity key. -/
def deduplicateItems (items : List WishlistItem) : List WishlistItem :=
  dedupGo [] items

/-- `sortByNewest` from merge.ts. -/
def sortByNewest (items : List WishlistItem) : List WishlistItem :=
  sortStable newestLt items

/-- Strict order of the ascending price comparator: a missing price is
`Infinity`, so a priced item strictly precedes a priceless one and two
priceless items tie. -/
def priceLtAsc (a b : WishlistItem) : Bool :=
  match a.price, b.price with
  | some p, some q => p.amount < q.amount
  | some _, none => true
  | none, _ => false

/-- Numeric key of the descending price comparator: a missing price is
`0`. -/
def priceKeyZero (a : WishlistItem) : Int :=
  match a.price with
  | some p => p.amount
  | none => 0

/-- Strict order of the descending price comparator
`(a, b) => priceB - priceA` with missing prices as `0`. -/
def priceLtDesc (a b : WishlistItem) : Bool :=
  priceKeyZero b < priceKeyZero a

/-- `sortByPriceLowToHigh` from merge.ts. -/
def sortByPriceLowToHigh (items : List WishlistItem) : List WishlistItem :=
  sortStable priceLtAsc items

/-- `sortByPriceHighToLow` from merge.ts. -/
def sortByPriceHighToLow (items : List WishlistItem) : List WishlistItem :=
  sortStable priceLtDesc items

/-- A raw JSON field value as seen by `isValidWishlistItem`: a string, or
some non-string value carrying only its truthiness (numbers, booleans,
`null`, nested objects — the validator only asks `!v` and
`typeof v !== 'string'` of it).  An absent property (`undefined`) is
`none` at the use site. -/
inductive JFieldVal where
  | str (s : String)
  | nonString (truthy : Bool)
deriving DecidableEq, Repr

/-- A stored record as far as validation inspects it: the three checked
properties.  Properties the validator never reads are irrelevant to which
records `getStoredItems` keeps and are omitted from the embedding. -/
structure RawRecord where
  productId : Option JFieldVal
  productTitle : Option JFieldVal
  addedAt : Option JFieldVal
deriving DecidableEq, Repr

/-- An element of the parsed JSON array: an object, or a non-object value
(`null`, numbers, strings, ...) carrying its truthiness. -/
inductive RawValue where
  | obj (r : RawRecord)
  | nonObject (truthy : Bool)
deriving DecidableEq, Repr

/-- The per-field check of `isValidWishlistItem`:
`!obj[f] || typeof obj[f] !== 'string'` fails exactly when the property
is a non-empty string (`""` is falsy, so it fails the `!obj[f]` test). -/
def fieldIsNonEmptyString : Option JFieldVal → Bool
  | some (.str s) => !(s == "")
  | _ => false

/-- `isValidWishlistItem` from the validation module: the value must be a
truthy object whose `productId`, `productTitle` and `addedAt` are
non-empty strings.  No date parsing is performed on `addedAt`. -/
def isValidWishlistItem : RawValue → Bool
  | .nonObject _ => false
  | .obj r =>
      fieldIsNonEmptyString r.productId &&
      fieldIsNonEmptyString r.productTitle &&
      fieldIsNonEmptyString r.addedAt

/-- What `window.localStorage` holds under the items key, as observed by
`getStoredItems`: storage unavailable, key absent, `JSON.parse` failure,
a parsed non-array value, or a parsed array. -/
inductive StorageState where
  | unavailable
  | absent
  | unparseable
  | parsedNonArray
  | parsedArray (l : List RawValue)
deriving DecidableEq, Repr

/-- `getStoredItems` from storage.ts: empty on every unavailable / absent
/ parse-error / non-array state, and the per-record validated filter of a
parsed array. -/
def getStoredItems : StorageState → List RawValue
  | .parsedArray l => l.filter isValidWishlistItem
  | _ => []

/-- Modelled from the spec: §4.1 requires of each stored record "a
parseable `addedAt`" and §3 fixes `addedAt` as an ISO-8601 timestamp;
the parse itself (`new Date(...)`) is host-runtime behaviour outside
src.  A minimal ISO-8601 check: the string starts with a
`YYYY-MM-DD` calendar date. -/
def parseableDateSpec (s : String) : Bool :=
  match s.data with
  | y1 :: y2 :: y3 :: y4 :: d1 :: m1 :: m2 :: d2 :: dd1 :: dd2 :: _ =>
      y1.isDigit && y2.isDigit && y3.isDigit && y4.isDigit &&
      d1 == '-' && m1.isDigit && m2.isDigit &&
      d2 == '-' && dd1.isDigit && dd2.isDigit
  | _ => false

/-- Modelled from the spec: the validation predicate §4.1 describes —
non-empty `productIdentity`, non-empty `title`, and a parseable
`addedAt` — for comparison with the code's `isValidWishlistItem`. -/
def specValidRecord : RawValue → Bool
  | .nonObject _ => false
  | .obj r =>
      fieldIsNonEmptyString r.productId &&
      fieldIsNonEmptyString r.productTitle &&
      (match r.addedAt with
       | some (.str s) => parseableDateSpec s
       | _ => false)

/-- `addStoredItem` from storage.ts, as a pure function of the stored
collection it reads back: no-op when an item with the same
`productId`/`variantId` (strict equality) already exists, append
otherwise. -/
def addStoredItem (item : WishlistItem) (items : List WishlistItem) :
    List WishlistItem :=
  if items.any (fun existing =>
      existing.productId == item.productId &&
      existing.variantId == item.variantId)
  then items
  else items ++ [item]

/-- `removeStoredItem` from storage.ts, as a pure function of the stored
collection. -/
def removeStoredItem (productId : String) (variantId : Option String)
    (items : List WishlistItem) : List WishlistItem :=
  items.filter (fun item =>
    !(item.productId == productId && item.variantId == variantId))

/-- `isItemStored` / the provider's `isWishlisted`: membership by strict
equality on `productId` and `variantId`. -/
def isWishlisted (items : List WishlistItem) (productId : String)
    (variantId : Option String) : Bool :=
  items.any (fun item =>
    item.productId == productId && item.variantId == variantId)

/-- `WishBridgeConfig` from the types module (fields the controller
reads). -/
structure WishBridgeConfig where
  apiUrl : String
  apiKey : Option String
  shopDomain : String
  customerId : Option String
  enableGuestWishlist : Option Bool
  enableAutoMerge : Option Bool
deriving DecidableEq, Repr

/-- JS truthiness of an optional string config field (`""` is falsy). -/
def strTruthy : Option String → Bool
  | some s => !(s == "")
  | none => false

/-- `const isGuest = !config.customerId`. -/
def WishBridgeConfig.isGuest (cfg : WishBridgeConfig) : Bool :=
  !(strTruthy cfg.customerId)

/-- `config.enableGuestWishlist ?? true`. -/
def WishBridgeConfig.guestEnabled (cfg : WishBridgeConfig) : Bool :=
  cfg.enableGuestWishlist.getD true

/-- `config.enableAutoMerge ?? true`. -/
def WishBridgeConfig.autoMergeEnabled (cfg : WishBridgeConfig) : Bool :=
  cfg.enableAutoMerge.getD true

/-- `DEFAULT_ERROR_MESSAGES.network`. -/
def errNetwork : String := "Network error. Please try again."

/-- `DEFAULT_ERROR_MESSAGES.rateLimited`. -/
def errRateLimited : String := "Too many requests. Please try again later."

/-- `DEFAULT_ERROR_MESSAGES.syncFailed`. -/
def errSyncFailed : String := "Failed to sync wishlist. Please try again."

/-- `DEFAULT_ERROR_MESSAGES.unknown`. -/
def errUnknown : String := "An unexpected error occurred."

/-- The provider state a controller operation reads and writes: the
in-memory collection, the error field, the transient flags, and the
validated guest collection held by localStorage (so that clearing /
writing storage is observable). -/
structure ProviderState where
  items : List WishlistItem
  error : Option String
  isLoading : Bool
  isSyncing : Bool
  stored : List WishlistItem
deriving DecidableEq, Repr

/-- Outcome of the one `POST /sync` round trip of `syncWishlist`:
the fetch (or `res.json()`) threw, the response was a 429, or a parsed
response with its `ok` status and `success` / `error` / `items` body
fields. -/
inductive SyncOutcome where
  | thrown
  | rateLimited
  | response (ok : Bool) (success : Bool) (error : Option String)
      (items : Option (List WishlistItem))
deriving DecidableEq, Repr

/-- `syncWishlist` from the provider: no-op unless a customer id and an
api key are configured; otherwise clears the error, and on the failure
paths records the rate-limited / server-reported / sync-failed / network
message, while on success it replaces the in-memory collection with the
server's merged result and clears local storage. -/
def syncWishlist (cfg : WishBridgeConfig) (outcome : SyncOutcome)
    (st : ProviderState) : ProviderState :=
  if !(strTruthy cfg.customerId) || !(strTruthy cfg.apiKey) then st
  else
    let st1 := { st with error := none, isSyncing := true }
    let st2 :=
      match outcome with
      | .thrown => { st1 with error := some errNetwork }
      | .rateLimited => { st1 with error := some errRateLimited }
      | .response ok success err items? =>
          if !ok || !success then
            { st1 with error := some (err.getD errSyncFailed) }
          else
            match items? with
            | some its => { st1 with items := its, stored := [] }
            | none => st1
    { st2 with isSyncing := false }

/-- The provider's initial-load effect (`loadItems`): starting from the
initial state (empty in-memory collection), guests load the stored
collection; an identified session with a non-empty stored collection and
auto-merge enabled runs `syncWishlist`, and otherwise loads the stored
collection directly. -/
def loadItems (cfg : WishBridgeConfig) (outcome : SyncOutcome)
    (stored : List WishlistItem) : ProviderState :=
  let st0 : ProviderState :=
    { items := [], error := none, isLoading := true, isSyncing := false,
      stored := stored }
  let st1 :=
    if cfg.isGuest && cfg.guestEnabled then
      { st0 with items := st0.stored }
    else if !cfg.isGuest then
      if decide (0 < st0.stored.length) && cfg.autoMergeEnabled then
        syncWishlist cfg outcome st0
      else
        { st0 with items := st0.stored }
    else st0
  { st1 with isLoading := false }

/-- `ProductInfo` from the types module (the argument of `add`). -/
structure ProductInfo where
  id : String
  title : String
  handle : Option String
  variantId : Option String
  variantTitle : Option String
  image : Option Image
  price : Option Price
deriving DecidableEq, Repr

/-- The `WishlistItem` the provider's `add` constructs from its argument;
`addedAt` is `new Date().toISOString()`, always parseable, embedded as
the current time `now`. -/
def buildItem (product : ProductInfo) (now : Nat) : WishlistItem :=
  { productId := product.id
    variantId := product.variantId
    productTitle := product.title
    productHandle := product.handle
    variantTitle := product.variantTitle
    image := product.image
    price := product.price
    addedAt := some now }

/-- Outcome of the one `POST /update` round trip of `add` / `remove`. -/
inductive UpdateOutcome where
  | thrown
  | response (ok : Bool) (success : Bool) (error : Option String)
deriving DecidableEq, Repr

/-- The rollback / removal filter used by `add` (on failure) and by
`remove` (optimistically): keep the entries not matching the identity by
strict equality. -/
def filterOutIdentity (productId : String) (variantId : Option String)
    (items : List WishlistItem) : List WishlistItem :=
  items.filter (fun existing =>
    !(existing.productId == productId && existing.variantId == variantId))

/-- The provider's `add`: optimistic prepend when no entry with the same
`productId`/`variantId` exists; guests persist to localStorage; an
identified session with an api key performs the remote update and, on a
non-ok / unsuccessful response or a transport error, rolls back by the
identity filter and sets the error. -/
def addOp (cfg : WishBridgeConfig) (product : ProductInfo) (now : Nat)
    (outcome : UpdateOutcome) (st : ProviderState) : ProviderState :=
  let item := buildItem product now
  let exists_ := st.items.any (fun existing =>
    existing.productId == item.productId &&
    existing.variantId == item.variantId)
  let st1 := { st with items := if exists_ then st.items else item :: st.items }
  if cfg.isGuest && cfg.guestEnabled then
    { st1 with stored := addStoredItem item st1.stored }
  else if !cfg.isGuest && strTruthy cfg.apiKey then
    match outcome with
    | .thrown =>
        { st1 with
          items := filterOutIdentity item.productId item.variantId st1.items
          error := some errNetwork }
    | .response ok success err =>
        if !ok || !success then
          { st1 with
            items := filterOutIdentity item.productId item.variantId st1.items
            error := some (err.getD errUnknown) }
        else st1
  else st1

/-- The provider's `remove`: optimistic filter by identity; guests delete
from localStorage; an identified session with an api key performs the
remote update and, on failure, only sets the error — the removed item is
not restored. -/
def removeOp (cfg : WishBridgeConfig) (productId : String)
    (variantId : Option String) (outcome : UpdateOutcome)
    (st : ProviderState) : ProviderState :=
  let st1 := { st with items := filterOutIdentity productId variantId st.items }
  if cfg.isGuest && cfg.guestEnabled then
    { st1 with stored := removeStoredItem productId variantId st1.stored }
  else if !cfg.isGuest && strTruthy cfg.apiKey then
    match outcome with
    | .thrown => { st1 with error := some errNetwork }
    | .response ok success err =>
        if !ok || !success then
          { st1 with error := some (err.getD errUnknown) }
        else st1
  else st1

/-- The map entry at `a`'s key exists and is not strictly later than `a`:
the invariant the guest-items loop establishes for every processed
item. -/
def NoEarlier (a : WishlistItem) (m : List (String × WishlistItem)) : Prop :=
  ∃ e, mapGet (createItemKey a) m = some e ∧
    dateLt a.addedAt e.addedAt = false

/-- Key coherence of a pair of input collections: any two of their items
sharing an identity key agree literally on `productId` and `variantId`
(rules out colon-collisions between distinct `(productId, variantId)`
pairs and the absent-versus-`'default'` aliasing). -/
def KeyCoherent (A B : List WishlistItem) : Prop :=
  ∀ x ∈ A ++ B, ∀ y ∈ A ++ B, createItemKey x = createItemKey y →
    x.productId = y.productId ∧ x.variantId = y.variantId

/-- Invariant of the merge map under key coherence: every entry is stored
under the key its value recomputes to, and the value's identity fields
agree with some input item carrying that key. -/
def MapCoh (A B : List WishlistItem)
    (m : List (String × WishlistItem)) : Prop :=
  ∀ p ∈ m, createItemKey p.2 = p.1 ∧
    ∃ x, x ∈ A ++ B ∧ createItemKey x = p.1 ∧
      p.2.productId = x.productId ∧ p.2.variantId = x.variantId

/-- The `POST /sync` outcomes `syncWishlist` treats as failures: a
transport / body-parse error, a 429, or a non-ok / unsuccessful
response. -/
def SyncFails : SyncOutcome → Prop
  | .thrown => True
  | .rateLimited => True
  | .response ok success _ _ => ok = false ∨ success = false

/-- The error message `syncWishlist` records on each failure outcome. -/
def syncFailureMsg : SyncOutcome → String
  | .thrown => errNetwork
  | .rateLimited => errRateLimited
  | .response _ _ err _ => err.getD errSyncFailed

/-- The `POST /update` outcomes `add` / `remove` treat as failures. -/
def UpdFails : UpdateOutcome → Prop
  | .thrown => True
  | .response ok success _ => ok = false ∨ success = false

/-- The error message `add` / `remove` record on each failure outcome. -/
def updFailureMsg : UpdateOutcome → String
  | .thrown => errNetwork
  | .response _ _ err => err.getD errUnknown

/-- The stored collection's uniqueness invariant: no two items share
their `(productId, variantId)` pair. -/
def NoDupIdentity (items : List WishlistItem) : Prop :=
  items.Pairwise (fun x y =>
    ¬(x.productId = y.productId ∧ x.variantId = y.variantId))

/-- Item constructor for the concrete scenarios below. -/
def mkItem (pid : String) (vid : Option String) (title : String)
    (t : Option Nat) (pr : Option Price) : WishlistItem :=
  { productId := pid, variantId := vid, productTitle := title,
    productHandle := none, variantTitle := none, image := none,
    price := pr, addedAt := t }

/-- C1 scenario: guest item, strictly earlier timestamp, own title. -/
def c1Local : WishlistItem := mkItem "p" none "Local Title" (some 5) none

/-- C1 scenario: customer item with the same identity key, later
timestamp, its own title. -/
def c1Remote : WishlistItem := mkItem "p" none "Remote Title" (some 10) none

/-- C1 witness inputs. -/
def c1WLocal : WishlistItem := mkItem "p" (some "v") "L" (some 3) none

/-- C1 witness inputs. -/
def c1WRemote : WishlistItem :=
  { productId := "p", variantId := some "v", productTitle := "R",
    productHandle := some "h", variantTitle := none, image := none,
    price := some { amount := 7, currencyCode := "USD" }, addedAt := some 9 }

/-- C2 scenario: an identified configuration with an api key and the
auto-merge default. -/
def c2Cfg : WishBridgeConfig :=
  { apiUrl := "https://api.example.com", apiKey := some "k",
    shopDomain := "shop.example.com", customerId := some "c",
    enableGuestWishlist := none, enableAutoMerge := none }

/-- C2 scenario: the guest item sitting in local storage. -/
def c2Item : WishlistItem := mkItem "p" none "Guest item" (some 3) none

/-- C3 scenario: the entry already present before the failing `add`. -/
def c3Pre : WishlistItem := mkItem "p" none "T" (some 3) none

/-- C3 scenario: the product whose `add` fails remotely; it has the same
identity as `c3Pre`. -/
def c3Product : ProductInfo :=
  { id := "p", title := "T", handle := none, variantId := none,
    variantTitle := none, image := none, price := none }

/-- C3 scenario: provider state holding exactly `c3Pre`. -/
def c3State : ProviderState :=
  { items := [c3Pre], error := none, isLoading := false,
    isSyncing := false, stored := [] }

/-- C4 witness inputs. -/
def c4WLocal : WishlistItem := mkItem "p" (some "v") "L" (some 12) none

/-- C4 witness inputs. -/
def c4WRemote : WishlistItem := mkItem "p" (some "v") "R" (some 4) none

/-- C5 scenario: valid stored records. -/
def c5GoodA : RawValue :=
  .obj { productId := some (.str "gid1"), productTitle := some (.str "A"),
         addedAt := some (.str "2024-01-01T00:00:00Z") }

/-- C5 scenario: valid stored records. -/
def c5GoodB : RawValue :=
  .obj { productId := some (.str "gid2"), productTitle := some (.str "B"),
         addedAt := some (.str "2024-01-02T00:00:00Z") }

/-- C5 scenario: valid stored records. -/
def c5GoodC : RawValue :=
  .obj { productId := some (.str "gid3"), productTitle := some (.str "C"),
         addedAt := some (.str "2024-01-03T00:00:00Z") }

/-- C5 scenario: a corrupted record (missing `productId`). -/
def c5Corrupt : RawValue :=
  .obj { productId := none, productTitle := some (.str "X"),
         addedAt := some (.str "2024-01-04T00:00:00Z") }

/-- C5 counterexample: a record whose `addedAt` is a non-empty string
that is not a parseable date. -/
def c5Unparseable : RawValue :=
  .obj { productId := some (.str "gid4"), productTitle := some (.str "D"),
         addedAt := some (.str "not-a-date") }

/-- C6 counterexample: an item without a price, listed first. -/
def c6NoPrice : WishlistItem := mkItem "n" none "No price" (some 1) none

/-- C6 counterexample: a free item (price amount `0`), listed second. -/
def c6Free : WishlistItem :=
  mkItem "f" none "Free" (some 2) (some { amount := 0, currencyCode := "USD" })

/-- C7 counterexample: guest item whose `productId` contains a colon and
whose `variantId` is absent. -/
def c7LocalItem : WishlistItem := mkItem "p:x" none "t" (some 1) none

/-- C7 counterexample: customer item with the same identity key through a
different `(productId, variantId)` split. -/
def c7RemoteItem : WishlistItem :=
  mkItem "p" (some "x:default") "u" (some 5) none

/-- C7 witness inputs. -/
def c7WA : List WishlistItem := [mkItem "p" (some "v") "x" (some 1) none]

/-- C7 witness inputs. -/
def c7WB : List WishlistItem :=
  [mkItem "p" (some "v") "y" (some 3) none, mkItem "q" none "z" (some 2) none]

/-- C8 witness input state. -/
def c8State : ProviderState :=
  { items := [mkItem "p" none "T" (some 3) none,
      mkItem "q" (some "v") "U" (some 4) none],
    error := none, isLoading := false, isSyncing := false, stored := [] }

/-- C9 witness inputs. -/
def c9A : WishlistItem := mkItem "p" none "A" (some 1) none

/-- C9 witness inputs. -/
def c9B : WishlistItem := mkItem "p" (some "default") "B" (some 2) none

/-- C10 witness inputs. -/
def c10Items : List WishlistItem :=
  [mkItem "p" none "A" (some 1) none, mkItem "p" (some "v") "B" (some 2) none]

/-- C10 witness inputs. -/
def c10New : WishlistItem := mkItem "q" none "C" (some 3) none

theorem mem_insertSorted (lt : α → α → Bool) (x : α) (l : List α) (z : α) :
    z ∈ insertSorted lt x l ↔ z = x ∨ z ∈ l := by
  induction l with
  | nil => simp [insertSorted]
  | cons y ys ih =>
      cases hyx : lt y x
      · simp [insertSorted, hyx]
      · simp [insertSorted, hyx, ih]
        tauto

theorem insertSorted_perm (lt : α → α → Bool) (x : α) (l : List α) :
    List.Perm (insertSorted lt x l) (x :: l) := by
  induction l with
  | nil => simp [insertSorted]
  | cons y ys ih =>
      cases hyx : lt y x
      · simp [insertSorted, hyx]
      · simp only [insertSorted, hyx, if_pos]
        exact (ih.cons y).trans (List.Perm.swap x y ys)

theorem sortStable_perm (lt : α → α → Bool) (l : List α) :
    List.Perm (sortStable lt l) l := by
  induction l with
  | nil => simp [sortStable]
  | cons x xs ih =>
      exact (insertSorted_perm lt x (sortStable lt xs)).trans (ih.cons x)

theorem mem_sortStable (lt : α → α → Bool) (l : List α) (z : α) :
    z ∈ sortStable lt l ↔ z ∈ l :=
  (sortStable_perm lt l).mem_iff

theorem insertSorted_pairwise {lt : α → α → Bool}
    (hasym : ∀ a b, lt a b = true → lt b a = false)
    (hneg : ∀ a b c, lt b a = false → lt c b = false → lt c a = false)
    (x : α) (l : List α) (hl : l.Pairwise (fun a b => lt b a = false)) :
    (insertSorted lt x l).Pairwise (fun a b => lt b a = false) := by
  induction l with
  | nil => simp [insertSorted]
  | cons y ys ih =>
      rcases List.pairwise_cons.mp hl with ⟨hy, hys⟩
      cases hyx : lt y x
      · simp only [insertSorted, hyx, Bool.false_eq_true, if_false]
        refine List.pairwise_cons.mpr ⟨?_, hl⟩
        intro z hz
        rcases List.mem_cons.mp hz with rfl | hz'
        · exact hyx
        · exact hneg x y z hyx (hy z hz')
      · simp only [insertSorted, hyx, if_pos]
        refine List.pairwise_cons.mpr ⟨?_, ih hys⟩
        intro z hz
        rcases (mem_insertSorted lt x ys z).mp hz with rfl | hz'
        · exact hasym y z hyx
        · exact hy z hz'

theorem sortStable_pairwise {lt : α → α → Bool}
    (hasym : ∀ a b, lt a b = true → lt b a = false)
    (hneg : ∀ a b c, lt b a = false → lt c b = false → lt c a = false)
    (l : List α) :
    (sortStable lt l).Pairwise (fun a b => lt b a = false) := by
  induction l with
  | nil => simp [sortStable]
  | cons x xs ih => exact insertSorted_pairwise hasym hneg x _ ih

theorem mapGet_mapSet (k k' : String) (v : WishlistItem)
    (m : List (String × WishlistItem)) :
    mapGet k (mapSet k' v m) = if k' = k then some v else mapGet k m := by
  induction m with
  | nil => by_cases h : k' = k <;> simp [mapSet, mapGet, h]
  | cons p rest ih =>
      by_cases h1 : p.1 = k'
      · simp only [mapSet, if_pos h1]
        by_cases h2 : k' = k
        · simp [mapGet, h2]
        · have h3 : ¬p.1 = k := fun hc => h2 (h1 ▸ hc)
          simp [mapGet, h2, h3]
      · simp only [mapSet, if_neg h1]
        by_cases h2 : p.1 = k
        · have h3 : ¬k' = k := fun hc => h1 (h2.trans hc.symm)
          simp [mapGet, h2, h3]
        · simp [mapGet, h2, ih]

theorem mem_mapSet (k : String) (v : WishlistItem)
    (m : List (String × WishlistItem)) (p : String × WishlistItem)
    (hp : p ∈ mapSet k v m) : p = (k, v) ∨ p ∈ m := by
  induction m with
  | nil => simpa [mapSet] using hp
  | cons q rest ih =>
      by_cases h1 : q.1 = k
      · simp only [mapSet, h1, if_pos] at hp
        rcases List.mem_cons.mp hp with rfl | h
        · exact Or.inl rfl
        · exact Or.inr (List.mem_cons_of_mem q h)
      · simp only [mapSet, h1, if_neg, not_false_iff] at hp
        rcases List.mem_cons.mp hp with rfl | h
        · exact Or.inr (List.mem_cons_self p rest)
        · rcases ih h with h' | h'
          · exact Or.inl h'
          · exact Or.inr (List.mem_cons_of_mem q h')

theorem mapSet_nodupKeys (k : String) (v : WishlistItem)
    (m : List (String × WishlistItem)) (h : (m.map Prod.fst).Nodup) :
    ((mapSet k v m).map Prod.fst).Nodup := by
  induction m with
  | nil => simp [mapSet]
  | cons p rest ih =>
      have h0 : p.1 ∉ rest.map Prod.fst ∧ (rest.map Prod.fst).Nodup :=
        List.nodup_cons.mp h
      by_cases h1 : p.1 = k
      · rw [show mapSet k v (p :: rest) = (k, v) :: rest from by
          simp [mapSet, h1]]
        exact List.nodup_cons.mpr ⟨h1 ▸ h0.1, h0.2⟩
      · rw [show mapSet k v (p :: rest) = p :: mapSet k v rest from by
          simp [mapSet, h1]]
        refine List.nodup_cons.mpr ⟨?_, ih h0.2⟩
        intro hc
        rcases List.mem_map.mp hc with ⟨q, hq, hq1⟩
        rcases mem_mapSet k v rest q hq with rfl | hq'
        · exact h1 hq1.symm
        · exact h0.1 (hq1 ▸ List.mem_map_of_mem Prod.fst hq')

theorem mapGet_some_mem (k : String) (v : WishlistItem)
    (m : List (String × WishlistItem)) (h : mapGet k m = some v) :
    (k, v) ∈ m := by
  induction m with
  | nil => simp [mapGet] at h
  | cons p rest ih =>
      by_cases h1 : p.1 = k
      · simp only [mapGet, h1, if_pos, Option.some.injEq] at h
        have : p = (k, v) := Prod.ext h1 h
        exact this ▸ List.mem_cons_self p rest
      · simp only [mapGet, h1, if_neg, not_false_iff] at h
        exact List.mem_cons_of_mem p (ih h)

theorem mem_mapGet_of_nodup (k : String) (v : WishlistItem)
    (m : List (String × WishlistItem)) (hnd : (m.map Prod.fst).Nodup)
    (h : (k, v) ∈ m) : mapGet k m = some v := by
  induction m with
  | nil => simp at h
  | cons p rest ih =>
      have h0 : p.1 ∉ rest.map Prod.fst ∧ (rest.map Prod.fst).Nodup :=
        List.nodup_cons.mp hnd
      rcases List.mem_cons.mp h with rfl | h'
      · simp [mapGet]
      · have hk : k ∈ rest.map Prod.fst :=
          List.mem_map.mpr ⟨(k, v), h', rfl⟩
        have h1 : ¬p.1 = k := fun he => h0.1 (he ▸ hk)
        rw [show mapGet k (p :: rest) = mapGet k rest from by
          simp [mapGet, h1]]
        exact ih h0.2 h'

theorem mapGet_eq_none_iff (k : String) (m : List (String × WishlistItem)) :
    mapGet k m = none ↔ k ∉ m.map Prod.fst := by
  induction m with
  | nil => simp [mapGet]
  | cons p rest ih =>
      by_cases h1 : p.1 = k
      · subst h1
        simp [mapGet]
      · have h2 : ¬k = p.1 := fun he => h1 he.symm
        simp [mapGet, h1, h2, ih]

theorem mem_values_iff_mapGet (v : WishlistItem)
    (m : List (String × WishlistItem)) (hnd : (m.map Prod.fst).Nodup) :
    v ∈ m.map Prod.snd ↔ ∃ k, mapGet k m = some v := by
  constructor
  · intro h
    rcases List.mem_map.mp h with ⟨⟨k0, v0⟩, hp, hp2⟩
    dsimp at hp2
    subst hp2
    exact ⟨k0, mem_mapGet_of_nodup k0 v0 m hnd hp⟩
  · rintro ⟨k, hk⟩
    exact List.mem_map.mpr ⟨(k, v), mapGet_some_mem k v m hk, rfl⟩

theorem foldl_seed_get_of_forall (items : List WishlistItem)
    (m0 : List (String × WishlistItem)) (k : String)
    (h : ∀ it ∈ items, createItemKey it ≠ k) :
    mapGet k (items.foldl (fun m it => mapSet (createItemKey it) it m) m0) =
      mapGet k m0 := by
  induction items generalizing m0 with
  | nil => rfl
  | cons it rest ih =>
      rw [List.foldl_cons, ih _ (fun x hx => h x (List.mem_cons_of_mem it hx)),
        mapGet_mapSet, if_neg (h it (List.mem_cons_self it rest))]

theorem foldl_seed_get_of_mem (items : List WishlistItem)
    (m0 : List (String × WishlistItem)) (r : WishlistItem) (k : String)
    (hnd : (items.map createItemKey).Nodup) (hr : r ∈ items)
    (hk : createItemKey r = k) :
    mapGet k (items.foldl (fun m it => mapSet (createItemKey it) it m) m0) =
      some r := by
  induction items generalizing m0 with
  | nil => simp at hr
  | cons it rest ih =>
      have h0 : createItemKey it ∉ rest.map createItemKey ∧
          (rest.map createItemKey).Nodup := List.nodup_cons.mp hnd
      rcases List.mem_cons.mp hr with rfl | hr'
      · rw [List.foldl_cons,
          foldl_seed_get_of_forall rest _ k (fun x hx hc => by
            exact h0.1 (hk ▸ hc ▸ List.mem_map_of_mem createItemKey hx)),
          mapGet_mapSet, if_pos hk]
      · exact List.foldl_cons _ _ ▸ ih _ h0.2 hr'

theorem foldl_seed_nodupKeys (items : List WishlistItem)
    (m0 : List (String × WishlistItem)) (h : (m0.map Prod.fst).Nodup) :
    (((items.foldl (fun m it => mapSet (createItemKey it) it m) m0).map
      Prod.fst)).Nodup := by
  induction items generalizing m0 with
  | nil => exact h
  | cons it rest ih =>
      exact List.foldl_cons _ _ ▸ ih _ (mapSet_nodupKeys _ _ _ h)

theorem seedMap_nodupKeys (items : List WishlistItem) :
    ((seedMap items).map Prod.fst).Nodup :=
  foldl_seed_nodupKeys items [] (by simp)

theorem mergeStep_get_other (m : List (String × WishlistItem))
    (it : WishlistItem) (k : String) (h : createItemKey it ≠ k) :
    mapGet k (mergeStep m it) = mapGet k m := by
  rcases hg : mapGet (createItemKey it) m with _ | e
  · simp only [mergeStep, hg]
    simp [mapGet_mapSet, h]
  · by_cases hlt : dateLt it.addedAt e.addedAt = true
    · simp only [mergeStep, hg, hlt, if_true]
      simp [mapGet_mapSet, h]
    · simp only [mergeStep, hg]
      rw [if_neg hlt]

theorem mergeStep_get_self (m : List (String × WishlistItem))
    (it : WishlistItem) :
    mapGet (createItemKey it) (mergeStep m it) =
      some (match mapGet (createItemKey it) m with
            | none => it
            | some e =>
                if dateLt it.addedAt e.addedAt then spreadMerge e it
                else e) := by
  rcases hg : mapGet (createItemKey it) m with _ | e
  · simp [mergeStep, hg, mapGet_mapSet]
  · by_cases hlt : dateLt it.addedAt e.addedAt = true
    · simp [mergeStep, hg, hlt, mapGet_mapSet]
    · simp only [mergeStep, hg, if_neg hlt]

theorem mergeStep_nodupKeys (m : List (String × WishlistItem))
    (it : WishlistItem) (h : (m.map Prod.fst).Nodup) :
    ((mergeStep m it).map Prod.fst).Nodup := by
  rcases hg : mapGet (createItemKey it) m with _ | e
  · simp only [mergeStep, hg]
    exact mapSet_nodupKeys _ _ _ h
  · by_cases hlt : dateLt it.addedAt e.addedAt = true
    · simp only [mergeStep, hg, hlt, if_true]
      exact mapSet_nodupKeys _ _ _ h
    · simp only [mergeStep, hg, if_neg hlt]
      exact h

theorem foldl_merge_get_of_forall (gs : List WishlistItem)
    (m0 : List (String × WishlistItem)) (k : String)
    (h : ∀ it ∈ gs, createItemKey it ≠ k) :
    mapGet k (gs.foldl mergeStep m0) = mapGet k m0 := by
  induction gs generalizing m0 with
  | nil => rfl
  | cons it rest ih =>
      rw [List.foldl_cons, ih _ (fun x hx => h x (List.mem_cons_of_mem it hx)),
        mergeStep_get_other m0 it k (h it (List.mem_cons_self it rest))]

theorem foldl_merge_get_of_mem (gs : List WishlistItem)
    (m0 : List (String × WishlistItem)) (l : WishlistItem) (k : String)
    (hnd : (gs.map createItemKey).Nodup) (hl : l ∈ gs)
    (hk : createItemKey l = k) :
    mapGet k (gs.foldl mergeStep m0) =
      some (match mapGet k m0 with
            | none => l
            | some e =>
                if dateLt l.addedAt e.addedAt then spreadMerge e l
                else e) := by
  induction gs generalizing m0 with
  | nil => simp at hl
  | cons it rest ih =>
      have h0 : createItemKey it ∉ rest.map createItemKey ∧
          (rest.map createItemKey).Nodup := List.nodup_cons.mp hnd
      rcases List.mem_cons.mp hl with rfl | hl'
      · rw [List.foldl_cons,
          foldl_merge_get_of_forall rest _ k (fun x hx hc => by
            exact h0.1 (hk ▸ hc ▸ List.mem_map_of_mem createItemKey hx)),
          ← hk, mergeStep_get_self]
      · have hne : createItemKey it ≠ k := fun hc =>
          h0.1 (hc ▸ hk ▸ List.mem_map_of_mem createItemKey hl')
        rw [List.foldl_cons, ih (mergeStep m0 it) h0.2 hl',
          mergeStep_get_other m0 it k hne]

theorem foldl_merge_nodupKeys (gs : List WishlistItem)
    (m0 : List (String × WishlistItem)) (h : (m0.map Prod.fst).Nodup) :
    ((gs.foldl mergeStep m0).map Prod.fst).Nodup := by
  induction gs generalizing m0 with
  | nil => exact h
  | cons it rest ih =>
      exact List.foldl_cons _ _ ▸ ih _ (mergeStep_nodupKeys m0 it h)

theorem mergeMap_nodupKeys (guestItems customerItems : List WishlistItem) :
    ((mergeMap guestItems customerItems).map Prod.fst).Nodup :=
  foldl_merge_nodupKeys guestItems _ (seedMap_nodupKeys customerItems)

theorem mergeMap_get_both (guestItems customerItems : List WishlistItem)
    (l r : WishlistItem)
    (hndl : (guestItems.map createItemKey).Nodup)
    (hndr : (customerItems.map createItemKey).Nodup)
    (hl : l ∈ guestItems) (hr : r ∈ customerItems)
    (hk : createItemKey l = createItemKey r) :
    mapGet (createItemKey l) (mergeMap guestItems customerItems) =
      some (if dateLt l.addedAt r.addedAt then spreadMerge r l else r) := by
  have hseed : mapGet (createItemKey l) (seedMap customerItems) = some r :=
    foldl_seed_get_of_mem customerItems [] r _ hndr hr hk.symm
  rw [mergeMap, foldl_merge_get_of_mem guestItems _ l _ hndl hl rfl, hseed]

theorem mem_mergeWishlists_iff (guestItems customerItems : List WishlistItem)
    (x : WishlistItem) :
    x ∈ mergeWishlists guestItems customerItems ↔
      x ∈ (mergeMap guestItems customerItems).map Prod.snd :=
  mem_sortStable newestLt _ x

theorem mapGet_mem_mergeWishlists (guestItems customerItems : List WishlistItem)
    (k : String) (x : WishlistItem)
    (h : mapGet k (mergeMap guestItems customerItems) = some x) :
    x ∈ mergeWishlists guestItems customerItems :=
  (mem_mergeWishlists_iff guestItems customerItems x).mpr
    (List.mem_map.mpr ⟨(k, x), mapGet_some_mem k x _ h, rfl⟩)

theorem dateLt_irrefl (a : Option Nat) : dateLt a a = false := by
  cases a <;> simp [dateLt]

theorem dateLt_step (a i e : Option Nat) (h1 : dateLt i e = true)
    (h2 : dateLt a e = false) : dateLt a i = false := by
  cases a <;> cases i <;> cases e <;> simp_all [dateLt]
  omega

theorem mergeStep_preserves_noEarlier (m : List (String × WishlistItem))
    (it a : WishlistItem) (h : NoEarlier a m) : NoEarlier a (mergeStep m it) := by
  rcases h with ⟨e, hget, hlt⟩
  by_cases hk : createItemKey it = createItemKey a
  · have hself := mergeStep_get_self m it
    simp only [hk, hget] at hself
    by_cases hlt2 : dateLt it.addedAt e.addedAt = true
    · refine ⟨spreadMerge e it, ?_, ?_⟩
      · rw [hself]
        simp [hlt2]
      · show dateLt a.addedAt (spreadMerge e it).addedAt = false
        have : (spreadMerge e it).addedAt = it.addedAt := rfl
        rw [this]
        exact dateLt_step a.addedAt it.addedAt e.addedAt hlt2 hlt
    · refine ⟨e, ?_, hlt⟩
      rw [hself]
      simp [hlt2]
  · exact ⟨e, (mergeStep_get_other m it _ hk) ▸ hget, hlt⟩

theorem foldl_merge_preserves_noEarlier (gs : List WishlistItem)
    (m0 : List (String × WishlistItem)) (a : WishlistItem)
    (h : NoEarlier a m0) : NoEarlier a (gs.foldl mergeStep m0) := by
  induction gs generalizing m0 with
  | nil => exact h
  | cons it rest ih =>
      exact List.foldl_cons _ _ ▸ ih _ (mergeStep_preserves_noEarlier m0 it a h)

theorem mergeStep_self_noEarlier (m : List (String × WishlistItem))
    (it : WishlistItem) : NoEarlier it (mergeStep m it) := by
  have hself := mergeStep_get_self m it
  rcases hg : mapGet (createItemKey it) m with _ | e
  · rw [hg] at hself
    exact ⟨it, by simpa using hself, dateLt_irrefl it.addedAt⟩
  · rw [hg] at hself
    by_cases hlt : dateLt it.addedAt e.addedAt = true
    · refine ⟨spreadMerge e it, by simpa [hlt] using hself, ?_⟩
      show dateLt it.addedAt (spreadMerge e it).addedAt = false
      have : (spreadMerge e it).addedAt = it.addedAt := rfl
      rw [this]
      exact dateLt_irrefl it.addedAt
    · exact ⟨e, by simpa [hlt] using hself,
        Bool.not_eq_true _ ▸ (by simpa using hlt)⟩

theorem foldl_merge_noEarlier (gs : List WishlistItem)
    (m0 : List (String × WishlistItem)) (a : WishlistItem) (ha : a ∈ gs) :
    NoEarlier a (gs.foldl mergeStep m0) := by
  induction gs generalizing m0 with
  | nil => simp at ha
  | cons it rest ih =>
      rcases List.mem_cons.mp ha with rfl | ha'
      · exact List.foldl_cons _ _ ▸
          foldl_merge_preserves_noEarlier rest _ a
            (mergeStep_self_noEarlier m0 a)
      · exact List.foldl_cons _ _ ▸ ih (mergeStep m0 it) ha'

theorem foldl_merge_noop (gs : List WishlistItem)
    (m0 : List (String × WishlistItem)) (h : ∀ a ∈ gs, NoEarlier a m0) :
    gs.foldl mergeStep m0 = m0 := by
  induction gs with
  | nil => rfl
  | cons it rest ih =>
      rcases h it (List.mem_cons_self it rest) with ⟨e, hget, hlt⟩
      have hstep : mergeStep m0 it = m0 := by
        simp only [mergeStep, hget, hlt]
        simp
      rw [List.foldl_cons, hstep,
        ih (fun a ha => h a (List.mem_cons_of_mem it ha))]

theorem jsOr_self (a : Option α) : jsOr a a = a := by
  cases a <;> rfl

theorem spreadMerge_ids (e it : WishlistItem)
    (hv : e.variantId = it.variantId) :
    (spreadMerge e it).productId = it.productId ∧
    (spreadMerge e it).variantId = it.variantId ∧
    createItemKey (spreadMerge e it) = createItemKey it := by
  have h1 : (spreadMerge e it).productId = it.productId := rfl
  have h2 : (spreadMerge e it).variantId = it.variantId := by
    show jsOr it.variantId e.variantId = it.variantId
    rw [← hv, jsOr_self, hv]
  refine ⟨h1, h2, ?_⟩
  unfold createItemKey
  rw [h1, h2]

theorem mapSet_coh (A B : List WishlistItem)
    (m : List (String × WishlistItem)) (k : String) (v : WishlistItem)
    (hm : MapCoh A B m)
    (hv : createItemKey v = k ∧ ∃ x, x ∈ A ++ B ∧ createItemKey x = k ∧
      v.productId = x.productId ∧ v.variantId = x.variantId) :
    MapCoh A B (mapSet k v m) := by
  intro p hp
  rcases mem_mapSet k v m p hp with rfl | hp'
  · exact hv
  · exact hm p hp'

theorem foldl_seed_coh (A B items : List WishlistItem)
    (m0 : List (String × WishlistItem))
    (hsub : ∀ it ∈ items, it ∈ A ++ B) (hm0 : MapCoh A B m0) :
    MapCoh A B
      (items.foldl (fun m it => mapSet (createItemKey it) it m) m0) := by
  induction items generalizing m0 with
  | nil => exact hm0
  | cons it rest ih =>
      rw [List.foldl_cons]
      exact ih _ (fun x hx => hsub x (List.mem_cons_of_mem it hx))
        (mapSet_coh A B m0 _ it hm0
          ⟨rfl, it, hsub it (List.mem_cons_self it rest), rfl, rfl, rfl⟩)

theorem mergeStep_coh (A B : List WishlistItem)
    (m : List (String × WishlistItem)) (it : WishlistItem)
    (hco : KeyCoherent A B) (hit : it ∈ A ++ B) (hm : MapCoh A B m) :
    MapCoh A B (mergeStep m it) := by
  rcases hg : mapGet (createItemKey it) m with _ | e
  · simp only [mergeStep, hg]
    exact mapSet_coh A B m _ it hm ⟨rfl, it, hit, rfl, rfl, rfl⟩
  · by_cases hlt : dateLt it.addedAt e.addedAt = true
    · simp only [mergeStep, hg, hlt, if_true]
      have hmem : (createItemKey it, e) ∈ m := mapGet_some_mem _ _ _ hg
      rcases hm _ hmem with ⟨hke, x, hx, hkx, hpe, hve⟩
      have hxy := hco x hx it hit (by rw [hkx])
      rcases spreadMerge_ids e it (hve.trans hxy.2) with ⟨h1, h2, h3⟩
      exact mapSet_coh A B m _ _ hm ⟨h3, it, hit, rfl, h1, h2⟩
    · simp only [mergeStep, hg, if_neg hlt]
      exact hm

theorem foldl_merge_coh (A B gs : List WishlistItem)
    (m0 : List (String × WishlistItem)) (hco : KeyCoherent A B)
    (hsub : ∀ it ∈ gs, it ∈ A ++ B) (hm0 : MapCoh A B m0) :
    MapCoh A B (gs.foldl mergeStep m0) := by
  induction gs generalizing m0 with
  | nil => exact hm0
  | cons it rest ih =>
      rw [List.foldl_cons]
      exact ih _ (fun x hx => hsub x (List.mem_cons_of_mem it hx))
        (mergeStep_coh A B m0 it hco (hsub it (List.mem_cons_self it rest))
          hm0)

theorem mergeMap_coh (A B : List WishlistItem) (hco : KeyCoherent A B) :
    MapCoh A B (mergeMap A B) := by
  refine foldl_merge_coh A B A _ hco
    (fun it hit => List.mem_append_left B hit) ?_
  exact foldl_seed_coh A B B [] (fun it hit => List.mem_append_right A hit)
    (fun p hp => absurd hp (List.not_mem_nil p))

theorem seedMap_remerge_get (A B : List WishlistItem) (hco : KeyCoherent A B)
    (k : String) :
    mapGet k (seedMap (mergeWishlists A B)) = mapGet k (mergeMap A B) := by
  have hND := mergeMap_nodupKeys A B
  have hcoh := mergeMap_coh A B hco
  have hperm : List.Perm ((mergeWishlists A B).map createItemKey)
      ((mergeMap A B).map Prod.fst) := by
    have h1 : List.Perm ((mergeWishlists A B).map createItemKey)
        (((mergeMap A B).map Prod.snd).map createItemKey) :=
      (sortStable_perm newestLt _).map createItemKey
    have h2 : ((mergeMap A B).map Prod.snd).map createItemKey =
        (mergeMap A B).map Prod.fst := by
      rw [List.map_map]
      exact List.map_congr_left (fun p hp => (hcoh p hp).1)
    exact h2 ▸ h1
  have hndL : ((mergeWishlists A B).map createItemKey).Nodup :=
    hperm.symm.nodup hND
  rcases hmk : mapGet k (mergeMap A B) with _ | v
  · have hknot : k ∉ (mergeMap A B).map Prod.fst :=
      (mapGet_eq_none_iff k _).mp hmk
    have hforall : ∀ v ∈ mergeWishlists A B, createItemKey v ≠ k := by
      intro v hv hc
      have hvM : v ∈ (mergeMap A B).map Prod.snd :=
        (mem_mergeWishlists_iff A B v).mp hv
      rcases List.mem_map.mp hvM with ⟨p, hp, hp2⟩
      have hkv : createItemKey v = p.1 := by
        rw [← hp2]
        exact (hcoh p hp).1
      exact hknot (hc ▸ hkv ▸ List.mem_map_of_mem Prod.fst hp)
    rw [seedMap, foldl_seed_get_of_forall _ [] k hforall]
    rfl
  · have hmem : (k, v) ∈ mergeMap A B := mapGet_some_mem k v _ hmk
    have hvL : v ∈ mergeWishlists A B :=
      (mem_mergeWishlists_iff A B v).mpr (List.mem_map.mpr ⟨(k, v), hmem, rfl⟩)
    have hkv : createItemKey v = k := (hcoh (k, v) hmem).1
    exact foldl_seed_get_of_mem _ [] v k hndL hvL hkv

theorem mergeMap_remerge_eq_seed (A B : List WishlistItem)
    (hco : KeyCoherent A B) :
    mergeMap A (mergeWishlists A B) = seedMap (mergeWishlists A B) := by
  refine foldl_merge_noop A _ ?_
  intro a ha
  rcases foldl_merge_noEarlier A (seedMap B) a ha with ⟨e, hget, hlt⟩
  exact ⟨e, (seedMap_remerge_get A B hco (createItemKey a)).trans hget, hlt⟩

theorem mergeMap_remerge_get (A B : List WishlistItem)
    (hco : KeyCoherent A B) (k : String) :
    mapGet k (mergeMap A (mergeWishlists A B)) = mapGet k (mergeMap A B) := by
  rw [mergeMap_remerge_eq_seed A B hco, seedMap_remerge_get A B hco]

theorem mergeWishlists_remerge_mem (A B : List WishlistItem)
    (hco : KeyCoherent A B) (x : WishlistItem) :
    x ∈ mergeWishlists A (mergeWishlists A B) ↔ x ∈ mergeWishlists A B := by
  rw [mem_mergeWishlists_iff, mem_mergeWishlists_iff,
    mem_values_iff_mapGet x _ (mergeMap_nodupKeys A (mergeWishlists A B)),
    mem_values_iff_mapGet x _ (mergeMap_nodupKeys A B)]
  constructor
  · rintro ⟨k, hk⟩
    exact ⟨k, (mergeMap_remerge_get A B hco k).symm.trans hk⟩
  · rintro ⟨k, hk⟩
    exact ⟨k, (mergeMap_remerge_get A B hco k).trans hk⟩

/-- C1 counterexample: with the local timestamp strictly earlier, the
claim says the merged entry is the remote entry with only `addedAt`
replaced — but `mergeWishlists` produces the spread in which the local
item's fields win, so the merged entry's title is the local one. -/
theorem c1_counterexample :
    dateLt c1Local.addedAt c1Remote.addedAt = true ∧
    mergeWishlists [c1Local] [c1Remote] ≠
      [{ c1Remote with addedAt := c1Local.addedAt }] ∧
    (mergeWishlists [c1Local] [c1Remote]).map WishlistItem.productTitle =
      [c1Local.productTitle] ∧
    c1Local.productTitle ≠ c1Remote.productTitle := by decide

/-- C1 (amended): for collections with unique identity keys and a key
present in both, when the local timestamp is strictly earlier the merged
entry is the shallow merge `{...remote, ...local, addedAt: local}` —
`addedAt` and every field present on the local item come from the local
item, and only the optional fields absent on the local item are filled
from the remote entry; when the timestamps are equal the remote entry is
kept unchanged. -/
theorem c1_merge_field_provenance
    (localItems remoteItems : List WishlistItem) (l r : WishlistItem)
    (hndl : (localItems.map createItemKey).Nodup)
    (hndr : (remoteItems.map createItemKey).Nodup)
    (hl : l ∈ localItems) (hr : r ∈ remoteItems)
    (hk : createItemKey l = createItemKey r) :
    (dateLt l.addedAt r.addedAt = true →
      mapGet (createItemKey l) (mergeMap localItems remoteItems) =
        some (spreadMerge r l) ∧
      spreadMerge r l ∈ mergeWishlists localItems remoteItems ∧
      (spreadMerge r l).addedAt = l.addedAt ∧
      (spreadMerge r l).productTitle = l.productTitle ∧
      (spreadMerge r l).productHandle = jsOr l.productHandle r.productHandle ∧
      (spreadMerge r l).variantTitle = jsOr l.variantTitle r.variantTitle ∧
      (spreadMerge r l).image = jsOr l.image r.image ∧
      (spreadMerge r l).price = jsOr l.price r.price) ∧
    (l.addedAt = r.addedAt →
      mapGet (createItemKey l) (mergeMap localItems remoteItems) = some r ∧
      r ∈ mergeWishlists localItems remoteItems) := by
  have hboth := mergeMap_get_both localItems remoteItems l r hndl hndr hl hr hk
  constructor
  · intro hlt
    have h1 : mapGet (createItemKey l) (mergeMap localItems remoteItems) =
        some (spreadMerge r l) := by
      rw [hboth, if_pos hlt]
    exact ⟨h1, mapGet_mem_mergeWishlists _ _ _ _ h1, rfl, rfl, rfl, rfl, rfl,
      rfl⟩
  · intro heq
    have hlt : ¬dateLt l.addedAt r.addedAt = true := by
      rw [heq, dateLt_irrefl]
      exact Bool.false_ne_true
    have h1 : mapGet (createItemKey l) (mergeMap localItems remoteItems) =
        some r := by
      rw [hboth, if_neg hlt]
    exact ⟨h1, mapGet_mem_mergeWishlists _ _ _ _ h1⟩

/-- C1 witness: the amended statement evaluated on a concrete earlier
local item and later remote item with a shared key. -/
theorem c1_merge_field_provenance_witness :
    mapGet (createItemKey c1WLocal) (mergeMap [c1WLocal] [c1WRemote]) =
      some (spreadMerge c1WRemote c1WLocal) ∧
    (spreadMerge c1WRemote c1WLocal).productTitle = c1WLocal.productTitle ∧
    (spreadMerge c1WRemote c1WLocal).productHandle =
      jsOr c1WLocal.productHandle c1WRemote.productHandle := by
  have h := (c1_merge_field_provenance [c1WLocal] [c1WRemote] c1WLocal
    c1WRemote (by decide) (by decide) (by decide) (by decide)
    (by decide)).1 (by decide)
  exact ⟨h.1, h.2.2.2.1, h.2.2.2.2.1⟩

/-- C4: with unique identity keys and parseable timestamps throughout,
the merged entry for a key present in both collections carries the
minimum of the two timestamps. -/
theorem c4_merged_addedAt_min
    (localItems remoteItems : List WishlistItem) (l r : WishlistItem)
    (hpl : ∀ it ∈ localItems, it.addedAt.isSome = true)
    (hpr : ∀ it ∈ remoteItems, it.addedAt.isSome = true)
    (hndl : (localItems.map createItemKey).Nodup)
    (hndr : (remoteItems.map createItemKey).Nodup)
    (hl : l ∈ localItems) (hr : r ∈ remoteItems)
    (hk : createItemKey l = createItemKey r) :
    ∃ x tl tr, l.addedAt = some tl ∧ r.addedAt = some tr ∧
      mapGet (createItemKey l) (mergeMap localItems remoteItems) = some x ∧
      x ∈ mergeWishlists localItems remoteItems ∧
      x.addedAt = some (min tl tr) := by
  rcases Option.isSome_iff_exists.mp (hpl l hl) with ⟨tl, htl⟩
  rcases Option.isSome_iff_exists.mp (hpr r hr) with ⟨tr, htr⟩
  have hboth := mergeMap_get_both localItems remoteItems l r hndl hndr hl hr hk
  by_cases hlt : dateLt l.addedAt r.addedAt = true
  · have h1 : mapGet (createItemKey l) (mergeMap localItems remoteItems) =
        some (spreadMerge r l) := by
      rw [hboth, if_pos hlt]
    refine ⟨spreadMerge r l, tl, tr, htl, htr, h1,
      mapGet_mem_mergeWishlists _ _ _ _ h1, ?_⟩
    have h2 : (spreadMerge r l).addedAt = l.addedAt := rfl
    have h3 : tl < tr := by
      rw [htl, htr] at hlt
      simpa [dateLt] using hlt
    rw [h2, htl, Nat.min_eq_left (Nat.le_of_lt h3)]
  · have h1 : mapGet (createItemKey l) (mergeMap localItems remoteItems) =
        some r := by
      rw [hboth, if_neg hlt]
    refine ⟨r, tl, tr, htl, htr, h1,
      mapGet_mem_mergeWishlists _ _ _ _ h1, ?_⟩
    have h3 : ¬tl < tr := by
      intro hc
      exact hlt (by rw [htl, htr]; simpa [dateLt] using hc)
    rw [htr, Nat.min_eq_right (Nat.le_of_not_lt h3)]

/-- C4 witness: the minimum-timestamp property evaluated on concrete
single-item collections sharing a key, with the remote timestamp
earlier. -/
theorem c4_merged_addedAt_min_witness :
    ∃ x tl tr, c4WLocal.addedAt = some tl ∧ c4WRemote.addedAt = some tr ∧
      mapGet (createItemKey c4WLocal) (mergeMap [c4WLocal] [c4WRemote]) =
        some x ∧
      x ∈ mergeWishlists [c4WLocal] [c4WRemote] ∧
      x.addedAt = some (min tl tr) :=
  c4_merged_addedAt_min [c4WLocal] [c4WRemote] c4WLocal c4WRemote
    (by decide) (by decide) (by decide) (by decide) (by decide) (by decide)
    (by decide)

/-- C2 counterexample: identified init with a non-empty guest collection
and a failing sync leaves the in-memory collection empty — it does not
equal the local collection, contrary to the claim (the guest data
survives only in local storage). -/
theorem c2_counterexample :
    (loadItems c2Cfg SyncOutcome.thrown [c2Item]).items = [] ∧
    (loadItems c2Cfg SyncOutcome.thrown [c2Item]).items ≠ [c2Item] ∧
    (loadItems c2Cfg SyncOutcome.thrown [c2Item]).error = some errNetwork ∧
    (loadItems c2Cfg SyncOutcome.thrown [c2Item]).stored = [c2Item] := by
  decide

/-- C2 (amended): identified init with api key, non-empty stored guest
collection and auto-merge enabled, when the sync fails (transport error,
429, or non-ok / unsuccessful response): the in-memory collection remains
empty (no fallback load happens), the error field is set to the
corresponding message, and the guest data is retained in local storage
(which is cleared only on success). -/
theorem c2_init_sync_failure (cfg : WishBridgeConfig)
    (stored : List WishlistItem) (outcome : SyncOutcome)
    (hc : strTruthy cfg.customerId = true) (hk : strTruthy cfg.apiKey = true)
    (hne : stored ≠ []) (ham : cfg.autoMergeEnabled = true)
    (hf : SyncFails outcome) :
    (loadItems cfg outcome stored).items = [] ∧
    (loadItems cfg outcome stored).error = some (syncFailureMsg outcome) ∧
    (loadItems cfg outcome stored).stored = stored := by
  have hguest : cfg.isGuest = false := by
    simp [WishBridgeConfig.isGuest, hc]
  have hlen : decide (0 < stored.length) = true := by
    simpa [List.length_pos] using hne
  cases outcome with
  | thrown =>
      simp [loadItems, hguest, hlen, ham, syncWishlist, hc, hk, syncFailureMsg]
  | rateLimited =>
      simp [loadItems, hguest, hlen, ham, syncWishlist, hc, hk, syncFailureMsg]
  | response ok success err items? =>
      rcases hf with hok | hsucc
      · subst hok
        simp [loadItems, hguest, hlen, ham, syncWishlist, hc, hk,
          syncFailureMsg]
      · subst hsucc
        simp [loadItems, hguest, hlen, ham, syncWishlist, hc, hk,
          syncFailureMsg]

/-- C2 witness: the amended statement evaluated on the concrete
identified configuration, one stored guest item and a rate-limited
sync. -/
theorem c2_init_sync_failure_witness :
    (loadItems c2Cfg SyncOutcome.rateLimited [c2Item]).items = [] ∧
    (loadItems c2Cfg SyncOutcome.rateLimited [c2Item]).error =
      some (syncFailureMsg SyncOutcome.rateLimited) ∧
    (loadItems c2Cfg SyncOutcome.rateLimited [c2Item]).stored = [c2Item] :=
  c2_init_sync_failure c2Cfg [c2Item] SyncOutcome.rateLimited (by decide)
    (by decide) (by decide) (by decide) trivial

/-- C3 counterexample: the added item's identity was already present
before the call, so the optimistic prepend was a no-op — yet the
failure rollback removes it, losing a previously present entry; and the
resulting error is the unknown-error message, which is neither the
Network nor the SyncFailed message. -/
theorem c3_counterexample :
    c3Pre ∈ c3State.items ∧
    (addOp c2Cfg c3Product 5 (UpdateOutcome.response false false none)
      c3State).items = [] ∧
    (addOp c2Cfg c3Product 5 (UpdateOutcome.response false false none)
      c3State).items ≠ c3State.items ∧
    (addOp c2Cfg c3Product 5 (UpdateOutcome.response false false none)
      c3State).error = some errUnknown ∧
    errUnknown ≠ errNetwork ∧ errUnknown ≠ errSyncFailed := by decide

/-- C3 (amended): a failing identified `add` leaves the in-memory
collection equal to the pre-call state with every entry matching the
added identity filtered out — exactly the pre-call state whenever the
identity was not already present — and sets the error to the
server-reported message, the unknown-error message (unsuccessful
response without a message), or the network message (transport
error). -/
theorem c3_add_failure_rollback (cfg : WishBridgeConfig)
    (st : ProviderState) (product : ProductInfo) (now : Nat)
    (outcome : UpdateOutcome) (hid : cfg.isGuest = false)
    (hk : strTruthy cfg.apiKey = true) (hf : UpdFails outcome) :
    (addOp cfg product now outcome st).items =
      filterOutIdentity product.id product.variantId st.items ∧
    (addOp cfg product now outcome st).error =
      some (updFailureMsg outcome) ∧
    (isWishlisted st.items product.id product.variantId = false →
      (addOp cfg product now outcome st).items = st.items) := by
  have hmatch : ((buildItem product now).productId == product.id &&
      (buildItem product now).variantId == product.variantId) = true := by
    simp [buildItem]
  have hfilter :
      filterOutIdentity product.id product.variantId
        (buildItem product now :: st.items) =
      filterOutIdentity product.id product.variantId st.items := by
    simp [filterOutIdentity, buildItem]
  have hb1 : (buildItem product now).productId = product.id := rfl
  have hb2 : (buildItem product now).variantId = product.variantId := rfl
  have hmain : (addOp cfg product now outcome st).items =
      filterOutIdentity product.id product.variantId st.items ∧
      (addOp cfg product now outcome st).error =
        some (updFailureMsg outcome) := by
    cases outcome with
    | thrown =>
        constructor
        · simp only [addOp, hid, hk]
          simp [hb1, hb2]
          split
          · rfl
          · exact hfilter
        · simp [addOp, hid, hk, updFailureMsg]
    | response ok success err =>
        rcases hf with hok | hsucc
        · subst hok
          constructor
          · simp only [addOp, hid, hk]
            simp [hb1, hb2]
            split
            · rfl
            · exact hfilter
          · simp [addOp, hid, hk, updFailureMsg]
        · subst hsucc
          constructor
          · simp only [addOp, hid, hk]
            simp [hb1, hb2]
            split
            · rfl
            · exact hfilter
          · simp [addOp, hid, hk, updFailureMsg]
  refine ⟨hmain.1, hmain.2, ?_⟩
  intro hnw
  rw [hmain.1]
  simp only [isWishlisted] at hnw
  unfold filterOutIdentity
  refine List.filter_eq_self.mpr ?_
  intro e he
  have h2 : ¬((e.productId == product.id &&
      e.variantId == product.variantId) = true) :=
    List.any_eq_false.mp hnw e he
  have h3 : (e.productId == product.id &&
      e.variantId == product.variantId) = false :=
    Bool.eq_false_iff.mpr h2
  simp [h3]

/-- C3 witness: the amended statement evaluated on the concrete
identified configuration with the item not previously present and a
transport failure. -/
theorem c3_add_failure_rollback_witness :
    (addOp c2Cfg c3Product 5 UpdateOutcome.thrown
      { items := [], error := none, isLoading := false, isSyncing := false,
        stored := [] }).items =
      filterOutIdentity c3Product.id c3Product.variantId [] ∧
    (addOp c2Cfg c3Product 5 UpdateOutcome.thrown
      { items := [], error := none, isLoading := false, isSyncing := false,
        stored := [] }).error = some (updFailureMsg UpdateOutcome.thrown) :=
  have h := c3_add_failure_rollback c2Cfg
    { items := [], error := none, isLoading := false, isSyncing := false,
      stored := [] } c3Product 5 UpdateOutcome.thrown (by decide) (by decide)
    trivial
  ⟨h.1, h.2.1⟩

/-- C8: a failing identified `remove` leaves the in-memory collection
equal to the optimistic filter of the pre-call state (the removed item
stays absent — it is not restored), and sets the error. -/
theorem c8_remove_failure_no_restore (cfg : WishBridgeConfig)
    (st : ProviderState) (pid : String) (vid : Option String)
    (outcome : UpdateOutcome) (hid : cfg.isGuest = false)
    (hk : strTruthy cfg.apiKey = true) (hf : UpdFails outcome) :
    (removeOp cfg pid vid outcome st).items =
      filterOutIdentity pid vid st.items ∧
    (removeOp cfg pid vid outcome st).error =
      some (updFailureMsg outcome) ∧
    isWishlisted (removeOp cfg pid vid outcome st).items pid vid = false := by
  have hmain : (removeOp cfg pid vid outcome st).items =
      filterOutIdentity pid vid st.items ∧
      (removeOp cfg pid vid outcome st).error =
        some (updFailureMsg outcome) := by
    cases outcome with
    | thrown => simp [removeOp, hid, hk, updFailureMsg]
    | response ok success err =>
        rcases hf with hok | hsucc
        · subst hok
          simp [removeOp, hid, hk, updFailureMsg]
        · subst hsucc
          simp [removeOp, hid, hk, updFailureMsg]
  refine ⟨hmain.1, hmain.2, ?_⟩
  rw [hmain.1]
  simp only [isWishlisted, filterOutIdentity]
  refine List.any_eq_false.mpr ?_
  intro e he hc
  have h2 := (List.mem_filter.mp he).2
  rw [hc] at h2
  simp at h2

/-- C8 witness: the statement evaluated on a concrete identified
configuration, a two-item state and an unsuccessful response. -/
theorem c8_remove_failure_no_restore_witness :
    (removeOp c2Cfg "p" none (UpdateOutcome.response true false (some "no"))
      c8State).items = filterOutIdentity "p" none c8State.items ∧
    (removeOp c2Cfg "p" none (UpdateOutcome.response true false (some "no"))
      c8State).error =
      some (updFailureMsg (UpdateOutcome.response true false (some "no"))) ∧
    isWishlisted (removeOp c2Cfg "p" none
      (UpdateOutcome.response true false (some "no")) c8State).items "p" none =
      false :=
  c8_remove_failure_no_restore c2Cfg c8State "p" none
    (UpdateOutcome.response true false (some "no")) (by decide) (by decide)
    (Or.inr rfl)

theorem fieldIsNonEmptyString_iff (f : Option JFieldVal) :
    fieldIsNonEmptyString f = true ↔
      ∃ s, f = some (JFieldVal.str s) ∧ s ≠ "" := by
  cases f with
  | none => simp [fieldIsNonEmptyString]
  | some v =>
      cases v with
      | str s => simp [fieldIsNonEmptyString]
      | nonString t => simp [fieldIsNonEmptyString]

/-- C5 counterexample: a record whose `addedAt` is the non-empty but
unparseable string `"not-a-date"` is retained by `getStoredItems`,
although the claim says only records with a parseable `addedAt` are
returned. -/
theorem c5_counterexample :
    getStoredItems (StorageState.parsedArray [c5Unparseable]) =
      [c5Unparseable] ∧
    [c5Unparseable].filter specValidRecord = [] ∧
    specValidRecord c5Unparseable = false ∧
    isValidWishlistItem c5Unparseable = true := by decide

/-- C5 (amended): loading never fails — every unavailable / absent /
parse-error / non-array storage state yields the empty collection — and
a parsed array yields exactly its records having a non-empty string
`productId`, a non-empty string `productTitle` and a non-empty string
`addedAt` (parseability of `addedAt` is not checked), dropping invalid
records individually; in particular one corrupted record among three
valid ones yields exactly the three valid records with no error. -/
theorem c5_load_validation (l : List RawValue) (r : RawRecord)
    (v : RawValue) :
    getStoredItems StorageState.unavailable = [] ∧
    getStoredItems StorageState.absent = [] ∧
    getStoredItems StorageState.unparseable = [] ∧
    getStoredItems StorageState.parsedNonArray = [] ∧
    (v ∈ getStoredItems (StorageState.parsedArray l) ↔
      v ∈ l ∧ isValidWishlistItem v = true) ∧
    (isValidWishlistItem (RawValue.obj r) = true ↔
      (∃ s, r.productId = some (JFieldVal.str s) ∧ s ≠ "") ∧
      (∃ s, r.productTitle = some (JFieldVal.str s) ∧ s ≠ "") ∧
      (∃ s, r.addedAt = some (JFieldVal.str s) ∧ s ≠ "")) ∧
    getStoredItems (StorageState.parsedArray
        [c5GoodA, c5Corrupt, c5GoodB, c5GoodC]) =
      [c5GoodA, c5GoodB, c5GoodC] := by
  refine ⟨rfl, rfl, rfl, rfl, ?_, ?_, by decide⟩
  · simp [getStoredItems, List.mem_filter]
  · simp [isValidWishlistItem, fieldIsNonEmptyString_iff]
    tauto

theorem priceLtAsc_asym (a b : WishlistItem)
    (h : priceLtAsc a b = true) : priceLtAsc b a = false := by
  cases ha : a.price <;> cases hb : b.price <;> simp_all [priceLtAsc]
  omega

theorem priceLtAsc_negtrans (a b c : WishlistItem)
    (h1 : priceLtAsc b a = false) (h2 : priceLtAsc c b = false) :
    priceLtAsc c a = false := by
  cases ha : a.price <;> cases hb : b.price <;> cases hc : c.price <;>
    simp_all [priceLtAsc]
  all_goals omega

theorem priceLtDesc_asym (a b : WishlistItem)
    (h : priceLtDesc a b = true) : priceLtDesc b a = false := by
  simp only [priceLtDesc, decide_eq_true_eq, decide_eq_false_iff_not] at h ⊢
  omega

theorem priceLtDesc_negtrans (a b c : WishlistItem)
    (h1 : priceLtDesc b a = false) (h2 : priceLtDesc c b = false) :
    priceLtDesc c a = false := by
  simp only [priceLtDesc, decide_eq_false_iff_not] at h1 h2 ⊢
  omega

/-- C6 counterexample: in the descending price sort a missing price is
keyed as `0`, so a free item (amount `0`) ties with a no-price item and
the stable sort keeps the no-price item first — a no-price item precedes
a priced one, contrary to the claim that no-price items come last in
both directions. -/
theorem c6_counterexample :
    sortByPriceHighToLow [c6NoPrice, c6Free] = [c6NoPrice, c6Free] ∧
    c6NoPrice.price = none ∧
    c6Free.price = some { amount := 0, currencyCode := "USD" } := by decide

/-- C6 (amended): the ascending price sort always places every no-price
item after every priced item; the descending price sort places no-price
items after every item whose price amount is positive, but an item with
a non-positive amount is not ordered before them (a zero amount ties,
preserving input order). -/
theorem c6_price_sort_order (items : List WishlistItem) :
    ((sortByPriceLowToHigh items).Pairwise fun a b =>
      a.price = none → b.price = none) ∧
    ((sortByPriceHighToLow items).Pairwise fun a b =>
      a.price = none → ∀ pr, b.price = some pr → pr.amount ≤ 0) := by
  constructor
  · have h := sortStable_pairwise priceLtAsc_asym priceLtAsc_negtrans items
    refine h.imp ?_
    intro a b hab ha
    cases hb : b.price with
    | none => rfl
    | some q =>
        have hx : priceLtAsc b a = true := by simp [priceLtAsc, ha, hb]
        rw [hx] at hab
        exact Bool.noConfusion hab
  · have h := sortStable_pairwise priceLtDesc_asym priceLtDesc_negtrans items
    refine h.imp ?_
    intro a b hab ha pr hbp
    simp only [priceLtDesc, decide_eq_false_iff_not] at hab
    have h1 : priceKeyZero a = 0 := by simp [priceKeyZero, ha]
    have h2 : priceKeyZero b = pr.amount := by simp [priceKeyZero, hbp]
    omega

/-- C7 counterexample: the guest item (`productId` containing a colon,
absent `variantId`) and the customer item share an identity key, but the
shallow merge keeps the customer `variantId`, so the merged entry's
recomputed key differs from its stored key; re-merging then inserts the
guest item a second time, and the two merge results differ as sets. -/
theorem c7_counterexample :
    createItemKey c7LocalItem = createItemKey c7RemoteItem ∧
    c7LocalItem ∈ mergeWishlists [c7LocalItem]
      (mergeWishlists [c7LocalItem] [c7RemoteItem]) ∧
    c7LocalItem ∉ mergeWishlists [c7LocalItem] [c7RemoteItem] := by decide

/-- C7 (amended): for collections whose items agree on
`(productId, variantId)` whenever they share an identity key, re-merging
already-merged data changes nothing up to set equality. -/
theorem c7_merge_idempotent (A B : List WishlistItem)
    (hco : KeyCoherent A B) :
    (mergeWishlists A (mergeWishlists A B)).toFinset =
      (mergeWishlists A B).toFinset := by
  ext x
  simp only [List.mem_toFinset]
  exact mergeWishlists_remerge_mem A B hco x

/-- C7 witness: the amended idempotence evaluated on concrete coherent
collections with one shared key and one customer-only key. -/
theorem c7_merge_idempotent_witness :
    KeyCoherent c7WA c7WB ∧
    (mergeWishlists c7WA (mergeWishlists c7WA c7WB)).toFinset =
      (mergeWishlists c7WA c7WB).toFinset :=
  ⟨by unfold KeyCoherent; decide,
   c7_merge_idempotent c7WA c7WB (by unfold KeyCoherent; decide)⟩

/-- C9: an item with `variantId` absent and an item with `variantId`
equal to the string `'default'` share the identity key (the `?? 'default'`
sentinel), so `mergeWishlists` and `deduplicateItems` collapse them into
one entry, while the strict-equality membership checks (`isWishlisted`,
the duplicate check of `add` / `addStoredItem`, the removal filters)
treat them as distinct. -/
theorem c9_default_variant_aliasing (a b : WishlistItem) (pid : String)
    (hpa : a.productId = pid) (hpb : b.productId = pid)
    (hva : a.variantId = none) (hvb : b.variantId = some "default") :
    createItemKey a = createItemKey b ∧
    (deduplicateItems [a, b]).length = 1 ∧
    (mergeWishlists [a] [b]).length = 1 ∧
    isWishlisted [b] pid none = false ∧
    isWishlisted [a] pid (some "default") = false ∧
    filterOutIdentity pid none [b] = [b] ∧
    removeStoredItem pid none [b] = [b] ∧
    (addStoredItem a [b]).length = 2 := by
  have hbeq1 : ((some "default" : Option String) == none) = false := by
    decide
  have hbeq2 : ((none : Option String) == some "default") = false := by
    decide
  have hkey : createItemKey a = createItemKey b := by
    simp [createItemKey, hpa, hpb, hva, hvb]
  refine ⟨hkey, ?_, ?_, ?_, ?_, ?_, ?_, ?_⟩
  · simp [deduplicateItems, dedupGo, hkey]
  · have hseed : seedMap [b] = [(createItemKey b, b)] := by
      simp [seedMap, mapSet]
    have hperm :=
      (sortStable_perm newestLt ((mergeMap [a] [b]).map Prod.snd)).length_eq
    rw [mergeWishlists, hperm, List.length_map]
    have hstep : mergeMap [a] [b] = mergeStep (seedMap [b]) a := rfl
    rw [hstep, hseed]
    have hget : mapGet (createItemKey a) [(createItemKey b, b)] = some b := by
      simp [mapGet, hkey]
    by_cases hlt : dateLt a.addedAt b.addedAt = true
    · simp [mergeStep, mapGet, mapSet, hlt, hkey]
    · simp [mergeStep, mapGet, mapSet, hlt, hkey]
  · simp [isWishlisted, hvb, hbeq1]
  · simp [isWishlisted, hva, hbeq2]
  · simp [filterOutIdentity, hvb, hbeq1]
  · simp [removeStoredItem, hvb, hbeq1]
  · simp [addStoredItem, hva, hvb, hbeq1]

/-- C9 witness: the aliasing evaluated on concrete items with
`variantId` absent and `variantId = 'default'`. -/
theorem c9_default_variant_aliasing_witness :
    createItemKey c9A = createItemKey c9B ∧
    (deduplicateItems [c9A, c9B]).length = 1 ∧
    (mergeWishlists [c9A] [c9B]).length = 1 ∧
    isWishlisted [c9B] "p" none = false ∧
    isWishlisted [c9A] "p" (some "default") = false ∧
    filterOutIdentity "p" none [c9B] = [c9B] ∧
    removeStoredItem "p" none [c9B] = [c9B] ∧
    (addStoredItem c9A [c9B]).length = 2 :=
  c9_default_variant_aliasing c9A c9B "p" rfl rfl rfl rfl

/-- C10: the stored collection's `(productId, variantId)` uniqueness
invariant is preserved by `addStoredItem` (which is a no-op when the
identity already exists and appends otherwise) and by
`removeStoredItem`. -/
theorem c10_storage_uniqueness (item : WishlistItem) (pid : String)
    (vid : Option String) (items : List WishlistItem)
    (h : NoDupIdentity items) :
    NoDupIdentity (addStoredItem item items) ∧
    NoDupIdentity (removeStoredItem pid vid items) := by
  constructor
  · unfold addStoredItem
    by_cases hex : (items.any fun existing =>
        existing.productId == item.productId &&
        existing.variantId == item.variantId) = true
    · rw [if_pos hex]
      exact h
    · rw [if_neg hex]
      unfold NoDupIdentity
      rw [List.pairwise_append]
      refine ⟨h, List.pairwise_singleton _ _, ?_⟩
      intro x hx y hy
      rcases List.mem_singleton.mp hy with rfl
      intro hc
      apply List.any_eq_false.mp (Bool.eq_false_iff.mpr hex) x hx
      simp [hc.1, hc.2]
  · unfold removeStoredItem NoDupIdentity
    exact List.Pairwise.sublist (List.filter_sublist _) h

/-- C10 witness: the invariant preservation evaluated on a concrete
duplicate-free two-item stored collection. -/
theorem c10_storage_uniqueness_witness :
    NoDupIdentity (addStoredItem c10New c10Items) ∧
    NoDupIdentity (removeStoredItem "p" none c10Items) :=
  c10_storage_uniqueness c10New "p" none c10Items
    (by unfold NoDupIdentity; decide)

end Wishlist
